import Mathlib

/-!
Verification of the DeFi data pipeline core: event decoding, batch
processing, idempotent persistence, wallet-statistics aggregation, retry
with backoff, and token-metadata fallback.

The definitions below are a shallow embedding of the Python source:
- `DeFiDataPipeline.fetch_swap_events`, `save_trades_to_db`,
  `update_wallet_stats`, `get_token_info`, `init_database` (pipeline module);
- `retry_web3_call` (utils/helpers.py).

Hex payloads and addresses are modelled as `List Char`, exactly the
character sequences the Python code slices (the code works on `"0x..."`
hex strings, e.g. `event['data'][2:66]`).  Machine integers are `Nat`
(all on-chain quantities handled here are unsigned and no overflow
occurs in the Python source, which has arbitrary-precision ints).
-/

set_option maxRecDepth 8000

namespace DeFi

/-- Value of one hex digit character, mirroring what Python's
`int(s, 16)` accepts for a digit (upper or lower case). `none` marks a
character that would make `int` raise `ValueError`. -/
def hexVal (c : Char) : Option Nat :=
  if '0' ≤ c ∧ c ≤ '9' then some (c.toNat - '0'.toNat)
  else if 'a' ≤ c ∧ c ≤ 'f' then some (c.toNat - 'a'.toNat + 10)
  else if 'A' ≤ c ∧ c ≤ 'F' then some (c.toNat - 'A'.toNat + 10)
  else none

/-- Accumulator loop of Python's `int(s, 16)` over the characters of `s`. -/
def pyIntHexCore : Nat → List Char → Option Nat
  | acc, [] => some acc
  | acc, c :: cs =>
    match hexVal c with
    | none => none
    | some v => pyIntHexCore (16 * acc + v) cs

/-- Python `int(s, 16)` on a slice of a hex string: raises (here `none`)
on the empty string and on any non-hex-digit character, otherwise returns
the big-endian value of the digits. -/
def pyIntHex (s : List Char) : Option Nat :=
  match s with
  | [] => none
  | _ => pyIntHexCore 0 s

/-- Python string/list slice `s[a:b]` (for `a ≤ b`, the only uses here). -/
def pySlice (s : List Char) (a b : Nat) : List Char :=
  (s.drop a).take (b - a)

/-- Python `s[-n:]`: the last `n` elements (the whole list when shorter). -/
def lastChars (n : Nat) (s : List Char) : List Char :=
  s.drop (s.length - n)

/-- One raw log entry as returned by the provider filter: block number,
transaction hash, emitting address, indexed topics and data payload, all
hex text exactly as the Python code receives them (`.hex()` strings with
a `0x` prefix). -/
structure RawEvent where
  blockNumber : Nat
  transactionHash : List Char
  address : List Char
  topics : List (List Char)
  data : List Char
deriving DecidableEq

/-- Per-event chain context fetched in the loop body of
`fetch_swap_events` (`get_block` / `get_transaction` /
`get_transaction_receipt`). -/
structure EvtContext where
  timestamp : Nat
  gasPrice : Nat
  gasUsed : Nat
deriving DecidableEq

/-- The `swap_data` dictionary built for each event
(pipeline module, lines 195-212). -/
structure Trade where
  block_number : Nat
  transaction_hash : List Char
  pair_address : List Char
  sender : List Char
  to_address : List Char
  amount0_in : Nat
  amount1_in : Nat
  amount0_out : Nat
  amount1_out : Nat
  timestamp : Nat
  gas_price : Nat
  gas_used : Nat
  token0_address : Option (List Char)
  token1_address : Option (List Char)
deriving DecidableEq

/-- The four amount fields decoded from the event data payload
(pipeline module, lines 201-204):
`int(event['data'][2:66], 16)`, `[66:130]`, `[130:194]`, `[194:258]`.
Any slice that makes `int` raise turns the whole event into a skip. -/
def decodeAmounts (data : List Char) : Option (Nat × Nat × Nat × Nat) := do
  let a0i ← pyIntHex (pySlice data 2 66)
  let a1i ← pyIntHex (pySlice data 66 130)
  let a0o ← pyIntHex (pySlice data 130 194)
  let a1o ← pyIntHex (pySlice data 194 258)
  pure (a0i, a1i, a0o, a1o)

/-- The swap event signature constant `self.swap_topic` (pipeline module,
line 37). -/
def swap_topic : List Char :=
  "0xd78ad95fa46c994b6551d0da85fc275fe613ce37657fb8d5e3d130840159d822".toList

/-- The `topics` argument of the `eth.filter` request built in
`fetch_swap_events` (lines 179-183): the single entry restricts topic 0
to the swap signature on the provider side. -/
def swapFilterTopics : List (List Char) := [swap_topic]

/-- Body of the per-event loop of `fetch_swap_events` (lines 187-218):
builds the `swap_data` entry for one event; `none` models the
`except ... continue` path (an exception from a missing topic index or a
failed `int` conversion is caught, logged, and the event skipped). -/
def processEvent (ctx : EvtContext) (e : RawEvent) : Option Trade := do
  let t1 ← e.topics[1]?
  let t2 ← e.topics[2]?
  let (a0i, a1i, a0o, a1o) ← decodeAmounts e.data
  pure
    { block_number := e.blockNumber
      transaction_hash := e.transactionHash
      pair_address := e.address
      sender := '0' :: 'x' :: lastChars 40 t1
      to_address := '0' :: 'x' :: lastChars 40 t2
      amount0_in := a0i
      amount1_in := a1i
      amount0_out := a0o
      amount1_out := a1o
      timestamp := ctx.timestamp
      gas_price := ctx.gasPrice
      gas_used := ctx.gasUsed
      token0_address := none
      token1_address := none }

/-- Failures of the provider call underlying the filter request. -/
inductive RpcError
  | connectivity
  | rateLimited
  | serverError
deriving DecidableEq

/-- Default of the `limit` parameter of `fetch_swap_events` (line 161). -/
def defaultEventLimit : Nat := 1000

/-- `fetch_swap_events` (lines 161-225).  `resp` is the outcome of the
filter request (`eth.filter` + `get_all_entries`); the outer
`try/except` catches any provider failure, logs it and returns the empty
list.  On success the loop runs over `events[:limit]`, appending every
event the loop body processes and skipping (`continue`) those whose
processing raises. `ctxOf` supplies the per-event block/tx/receipt
context. -/
def fetch_swap_events (resp : Except RpcError (List RawEvent))
    (ctxOf : RawEvent → EvtContext) (limit : Nat) : List Trade :=
  match resp with
  | Except.error _ => []
  | Except.ok events => (events.take limit).filterMap fun e => processEvent (ctxOf e) e

/-! ### Trade store (`init_database`, `save_trades_to_db`)

The `trades` table created by `init_database` (lines 50-69) has a single
constraint: the `id INTEGER PRIMARY KEY AUTOINCREMENT` column.  There is
no `UNIQUE` constraint on any other column and no `log_index` column at
all.  A row is therefore a `TradeRow` carrying the fresh `id`; the
`created_at TIMESTAMP DEFAULT CURRENT_TIMESTAMP` column takes the commit
time `now`. -/

/-- One persisted row of the `trades` table (schema lines 50-69). -/
structure TradeRow where
  id : Nat
  block_number : Nat
  transaction_hash : List Char
  pair_address : List Char
  sender : List Char
  to_address : List Char
  amount0_in : Nat
  amount1_in : Nat
  amount0_out : Nat
  amount1_out : Nat
  token0_address : Option (List Char)
  token1_address : Option (List Char)
  timestamp : Nat
  gas_price : Nat
  gas_used : Nat
  created_at : Nat
deriving DecidableEq

/-- State of the `trades` table: the stored rows plus the next value of
the autoincrement primary key. -/
structure TradesDb where
  nextId : Nat
  rows : List TradeRow
deriving DecidableEq

/-- A freshly created database (SQLite autoincrement starts at 1). -/
def emptyTradesDb : TradesDb := { nextId := 1, rows := [] }

/-- The row inserted for `trade`, with autoincrement `id` and default
`created_at` (the insert of `save_trades_to_db` names the other
fourteen columns, lines 236-248). -/
def tradeToRow (rowId : Nat) (now : Nat) (t : Trade) : TradeRow :=
  { id := rowId
    block_number := t.block_number
    transaction_hash := t.transaction_hash
    pair_address := t.pair_address
    sender := t.sender
    to_address := t.to_address
    amount0_in := t.amount0_in
    amount1_in := t.amount1_in
    amount0_out := t.amount0_out
    amount1_out := t.amount1_out
    token0_address := t.token0_address
    token1_address := t.token1_address
    timestamp := t.timestamp
    gas_price := t.gas_price
    gas_used := t.gas_used
    created_at := now }

/-- One `INSERT OR IGNORE INTO trades ...` statement (lines 236-248).
`OR IGNORE` drops the row only when a uniqueness constraint would be
violated; the only constraint in the schema is the primary key `id`, so
the conflict check is against a clash of the fresh autoincrement id —
which never happens, as every stored id is below `nextId`. -/
def insertOrIgnoreTrade (now : Nat) (db : TradesDb) (t : Trade) : TradesDb :=
  if db.rows.any fun r => r.id = db.nextId then db
  else { nextId := db.nextId + 1, rows := db.rows ++ [tradeToRow db.nextId now t] }

/-- `save_trades_to_db` (lines 227-252): early return on the empty list
(`foldl` over `[]` is the identity), otherwise one insert per trade. -/
def save_trades_to_db (now : Nat) (db : TradesDb) (trades : List Trade) : TradesDb :=
  trades.foldl (insertOrIgnoreTrade now) db

/-! ### Wallet statistics (`init_database`, `update_wallet_stats`)

The `wallets` table (schema lines 84-93) has `address` as its primary
key; `total_trades` defaults to 0, `total_volume_usd REAL` defaults
to 0, `created_at` defaults to `CURRENT_TIMESTAMP`, and the two trade
date columns have no default (NULL).

The aggregation query of `update_wallet_stats` (lines 259-266) stores
`MIN(datetime(timestamp, 'unixepoch'))` and the matching `MAX`.  Since
`datetime` renders a unix timestamp as a fixed-width `YYYY-MM-DD
HH:MM:SS` string, the map from timestamp to rendered string is strictly
increasing, so the minimum/maximum of the rendered strings is the
rendering of the minimum/maximum timestamp; the model therefore keeps
the timestamps themselves. -/

/-- One row of the `wallets` table (schema lines 84-93).
`total_volume_usd` is a `REAL` column, modelled as `ℚ`. -/
structure WalletRow where
  address : List Char
  total_trades : Nat
  total_volume_usd : ℚ
  first_trade_date : Option Nat
  last_trade_date : Option Nat
  created_at : Nat
deriving DecidableEq

/-- One result row of the `GROUP BY sender` aggregation query
(lines 259-266). -/
structure WalletStatQueryRow where
  wallet : List Char
  trade_count : Nat
  first_trade : Option Nat
  last_trade : Option Nat
deriving DecidableEq

/-- The aggregate row the query produces for sender `s`. -/
def mkWalletStat (rows : List TradeRow) (s : List Char) : WalletStatQueryRow :=
  let mine := rows.filter fun r => r.sender = s
  { wallet := s
    trade_count := mine.length
    first_trade := (mine.map TradeRow.timestamp).min?
    last_trade := (mine.map TradeRow.timestamp).max? }

/-- The aggregation query of `update_wallet_stats` (lines 259-268): one
row per distinct sender, with its trade count and the min/max trade
timestamp. -/
def wallet_stats_query (rows : List TradeRow) : List WalletStatQueryRow :=
  ((rows.map TradeRow.sender).dedup).map (mkWalletStat rows)

/-- The wallet row written for one aggregate: `INSERT OR REPLACE` names
only `address, total_trades, first_trade_date, last_trade_date`
(lines 273-277), so `total_volume_usd` and `created_at` take their
schema defaults (0 and the current timestamp `now`). -/
def statRow (now : Nat) (st : WalletStatQueryRow) : WalletRow :=
  { address := st.wallet
    total_trades := st.trade_count
    total_volume_usd := 0
    first_trade_date := st.first_trade
    last_trade_date := st.last_trade
    created_at := now }

/-- One `INSERT OR REPLACE INTO wallets ...` statement: SQLite deletes
any row conflicting on the `address` primary key and inserts the new
row. -/
def applyStat (now : Nat) (tbl : List WalletRow) (st : WalletStatQueryRow) :
    List WalletRow :=
  (tbl.filter fun r => ¬ r.address = st.wallet) ++ [statRow now st]

/-- `update_wallet_stats` (lines 254-281): run the aggregation query
over the trades rows and replace one wallet row per result row. -/
def update_wallet_stats (now : Nat) (trades : List TradeRow)
    (wallets : List WalletRow) : List WalletRow :=
  (wallet_stats_query trades).foldl (applyStat now) wallets

/-! ### Retry with backoff (`utils/helpers.py`, `retry_web3_call`) -/

/-- The `for attempt in range(max_retries)` loop of `retry_web3_call`
(helpers.py lines 26-37).  `f k` is the outcome of the `(k+1)`-th call
of `func`; the result pairs the value returned (or the error re-raised
on the last attempt) with the list of sleep durations
`delay * 2 ** attempt`, in order.  `fuel` counts the loop iterations
still available; `none` models the implicit `return None` when the loop
ends without returning (only possible for `max_retries = 0`). -/
def retryLoop {ε α : Type} (f : Nat → Except ε α) (delay : ℚ)
    (maxRetries : Nat) : Nat → Nat → Option (Except ε α × List ℚ)
  | _, 0 => none
  | attempt, fuel + 1 =>
    match f attempt with
    | Except.ok a => some (Except.ok a, [])
    | Except.error e =>
      if attempt = maxRetries - 1 then some (Except.error e, [])
      else
        match retryLoop f delay maxRetries (attempt + 1) fuel with
        | none => none
        | some (r, ws) => some (r, delay * 2 ^ attempt :: ws)

/-- `retry_web3_call(func, max_retries, delay)` (helpers.py lines
26-37), starting the loop at attempt 0 with `max_retries` iterations
available. -/
def retry_web3_call {ε α : Type} (f : Nat → Except ε α) (maxRetries : Nat)
    (delay : ℚ) : Option (Except ε α × List ℚ) :=
  retryLoop f delay maxRetries 0 maxRetries

/-! ### Token metadata (`get_token_info`) -/

/-- A failed on-chain metadata lookup (any exception raised inside the
`try` block of `get_token_info`). -/
inductive LookupError
  | failed
deriving DecidableEq

/-- The four on-chain values read on a successful lookup
(`symbol() / name() / decimals() / totalSupply()`). -/
structure TokenChainData where
  symbol : List Char
  name : List Char
  decimals : Nat
  totalSupply : Nat
deriving DecidableEq

/-- The dictionary returned by `get_token_info` (lines 144-150 and
153-159). -/
structure TokenInfo where
  address : List Char
  symbol : List Char
  name : List Char
  decimals : Nat
  total_supply : Nat
deriving DecidableEq

/-- `get_token_info` (lines 99-159): on success the on-chain values with
the input address; on any lookup failure the sentinel record
`UNKNOWN / Unknown Token / 18 / 0`, again with the input address —
returned, not raised. -/
def get_token_info (token_address : List Char)
    (lookup : Except LookupError TokenChainData) : TokenInfo :=
  match lookup with
  | Except.ok d =>
    { address := token_address
      symbol := d.symbol
      name := d.name
      decimals := d.decimals
      total_supply := d.totalSupply }
  | Except.error _ =>
    { address := token_address
      symbol := "UNKNOWN".toList
      name := "Unknown Token".toList
      decimals := 18
      total_supply := 0 }

/-! ### Reference encodings and concrete fixtures

`hexChar`, `toHexBE` and `encodePayload` build the hex text of a
well-formed 128-byte swap payload of four 32-byte big-endian words, used
to state decode correctness.  The remaining definitions are concrete
events, trades and rows used as test fixtures and witnesses. -/

/-- The (lower-case) hex digit character of a value below 16. -/
def hexChar (n : Nat) : Char :=
  if n < 10 then Char.ofNat ('0'.toNat + n) else Char.ofNat ('a'.toNat + (n - 10))

/-- Big-endian fixed-width hex rendering of `w` with `k` digits. -/
def toHexBE : Nat → Nat → List Char
  | 0, _ => []
  | k + 1, w => hexChar (w / 16 ^ k) :: toHexBE k (w % 16 ^ k)

/-- The data payload of a well-formed swap log: `0x` followed by four
consecutive 32-byte (64 hex digit) big-endian words. -/
def encodePayload (w0 w1 w2 w3 : Nat) : List Char :=
  '0' :: 'x' :: (toHexBE 64 w0 ++ (toHexBE 64 w1 ++ (toHexBE 64 w2 ++ toHexBE 64 w3)))

/-- Fixture chain context shared by the fixture events. -/
def ctx0 : EvtContext := { timestamp := 1700000000, gasPrice := 30, gasUsed := 21000 }

/-- Fixture topic word for `topics[1]` (sender). -/
def topicOne : List Char := '0' :: 'x' :: List.replicate 64 '1'

/-- Fixture topic word for `topics[2]` (recipient). -/
def topicTwo : List Char := '0' :: 'x' :: List.replicate 64 '2'

/-- A well-formed 128-byte all-zero data payload. -/
def goodData : List Char := '0' :: 'x' :: List.replicate 256 '0'

/-- First valid fixture swap log. -/
def evGood1 : RawEvent :=
  { blockNumber := 101, transactionHash := "0xa1".toList, address := "0xpair".toList,
    topics := [swap_topic, topicOne, topicTwo], data := goodData }

/-- Second valid fixture swap log. -/
def evGood2 : RawEvent :=
  { blockNumber := 102, transactionHash := "0xa2".toList, address := "0xpair".toList,
    topics := [swap_topic, topicOne, topicTwo], data := goodData }

/-- Third valid fixture swap log. -/
def evGood3 : RawEvent :=
  { blockNumber := 103, transactionHash := "0xa3".toList, address := "0xpair".toList,
    topics := [swap_topic, topicOne, topicTwo], data := goodData }

/-- A malformed fixture log: its data payload is just `0x`, so the first
`int(event['data'][2:66], 16)` raises and the event is skipped. -/
def evMalformed : RawEvent :=
  { blockNumber := 102, transactionHash := "0xbad".toList, address := "0xpair".toList,
    topics := [swap_topic, topicOne, topicTwo], data := ['0', 'x'] }

/-- Fixture batch: exactly 3 valid swap logs and 1 malformed log. -/
def fixtureBatch : List RawEvent := [evGood1, evMalformed, evGood2, evGood3]

/-- The trade decoded from `evGood1` under `ctx0`. -/
def tGood1 : Trade :=
  { block_number := 101, transaction_hash := "0xa1".toList,
    pair_address := "0xpair".toList,
    sender := '0' :: 'x' :: List.replicate 40 '1',
    to_address := '0' :: 'x' :: List.replicate 40 '2',
    amount0_in := 0, amount1_in := 0, amount0_out := 0, amount1_out := 0,
    timestamp := 1700000000, gas_price := 30, gas_used := 21000,
    token0_address := none, token1_address := none }

/-- A topic word different from the swap signature. -/
def badTopic : List Char := '0' :: 'x' :: List.replicate 64 'f'

/-- A raw log whose `topics[0]` is not the swap event signature but
which is otherwise well-formed. -/
def evBadTopic : RawEvent :=
  { blockNumber := 104, transactionHash := "0xa4".toList, address := "0xpair".toList,
    topics := [badTopic, topicOne, topicTwo], data := goodData }

/-- A data payload of 160 bytes (320 hex digits): five 32-byte words. -/
def longData : List Char := '0' :: 'x' :: List.replicate 320 '0'

/-- Fixture trade used for the persistence claims. -/
def sampleTrade : Trade :=
  { block_number := 55, transaction_hash := "0xdead".toList,
    pair_address := "0xpair".toList,
    sender := '0' :: 'x' :: List.replicate 40 '1',
    to_address := '0' :: 'x' :: List.replicate 40 '2',
    amount0_in := 1000, amount1_in := 0, amount0_out := 0, amount1_out := 3,
    timestamp := 1700000000, gas_price := 30, gas_used := 21000,
    token0_address := none, token1_address := none }

/-- The fixture sender address `0xAA`. -/
def addrAA : List Char := "0xAA".toList

/-- A fixture trades-table row from sender `0xAA` at timestamp `ts`. -/
def aaRow (rowId ts : Nat) : TradeRow :=
  { id := rowId, block_number := 50 + rowId, transaction_hash := "0xt".toList,
    pair_address := "0xpair".toList, sender := addrAA,
    to_address := "0xrcpt".toList,
    amount0_in := 1, amount1_in := 0, amount0_out := 0, amount1_out := 2,
    token0_address := none, token1_address := none,
    timestamp := ts, gas_price := 30, gas_used := 21000, created_at := 1 }

/-- Fixture trade set: sender `0xAA` at timestamps 100, 500, 300. -/
def aaRows : List TradeRow := [aaRow 1 100, aaRow 2 500, aaRow 3 300]

/-- A pre-existing wallet row for `0xAA` with nonzero accumulated volume
and an old creation time. -/
def oldWalletAA : WalletRow :=
  { address := addrAA, total_trades := 99, total_volume_usd := 5,
    first_trade_date := some 7, last_trade_date := some 8, created_at := 1 }

/-- Simulated endpoint for the retry witness: fails on the first two
calls, succeeds with 7 on the third. -/
def flakyCall : Nat → Except Nat Nat :=
  fun k => if k < 2 then Except.error k else Except.ok 7

/-! ## Helper lemmas -/

theorem toHexBE_length (k w : Nat) : (toHexBE k w).length = k := by
  induction k generalizing w with
  | zero => rfl
  | succ k ih => simp [toHexBE, ih]

theorem hexVal_hexChar (d : Nat) (hd : d < 16) : hexVal (hexChar d) = some d := by
  interval_cases d <;> decide

theorem pyIntHexCore_toHexBE (k : Nat) :
    ∀ (w acc : Nat), w < 16 ^ k →
      pyIntHexCore acc (toHexBE k w) = some (acc * 16 ^ k + w) := by
  induction k with
  | zero =>
    intro w acc hw
    have : w = 0 := Nat.lt_one_iff.mp hw
    simp [this, toHexBE, pyIntHexCore]
  | succ k ih =>
    intro w acc hw
    have hdiv : w / 16 ^ k < 16 := by
      rw [Nat.div_lt_iff_lt_mul (Nat.pos_pow_of_pos k (by norm_num))]
      calc w < 16 ^ (k + 1) := hw
        _ = 16 * 16 ^ k := by ring
    have hmod : w % 16 ^ k < 16 ^ k :=
      Nat.mod_lt _ (Nat.pos_pow_of_pos k (by norm_num))
    rw [toHexBE]
    rw [show pyIntHexCore acc (hexChar (w / 16 ^ k) :: toHexBE k (w % 16 ^ k)) =
        match hexVal (hexChar (w / 16 ^ k)) with
        | none => none
        | some v => pyIntHexCore (16 * acc + v) (toHexBE k (w % 16 ^ k)) from rfl]
    rw [hexVal_hexChar _ hdiv]
    dsimp only
    rw [ih (w % 16 ^ k) (16 * acc + w / 16 ^ k) hmod]
    congr 1
    have hdm := Nat.div_add_mod w (16 ^ k)
    calc (16 * acc + w / 16 ^ k) * 16 ^ k + w % 16 ^ k
        = acc * (16 ^ k * 16) + (16 ^ k * (w / 16 ^ k) + w % 16 ^ k) := by ring
      _ = acc * 16 ^ (k + 1) + w := by rw [hdm]; ring

theorem pyIntHex_cons (c : Char) (cs : List Char) :
    pyIntHex (c :: cs) = pyIntHexCore 0 (c :: cs) := rfl

theorem pyIntHex_toHexBE (k w : Nat) (hk : k ≠ 0) (hw : w < 16 ^ k) :
    pyIntHex (toHexBE k w) = some w := by
  obtain ⟨k, rfl⟩ := Nat.exists_eq_succ_of_ne_zero hk
  rw [toHexBE, pyIntHex_cons, ← toHexBE]
  rw [pyIntHexCore_toHexBE (k + 1) w 0 hw]
  simp

theorem decodeAmounts_encodePayload (w0 w1 w2 w3 : Nat)
    (h0 : w0 < 16 ^ 64) (h1 : w1 < 16 ^ 64) (h2 : w2 < 16 ^ 64) (h3 : w3 < 16 ^ 64) :
    decodeAmounts (encodePayload w0 w1 w2 w3) = some (w0, w1, w2, w3) := by
  have lA := toHexBE_length 64 w0
  have lB := toHexBE_length 64 w1
  have lC := toHexBE_length 64 w2
  have lD := toHexBE_length 64 w3
  have hd2 : (encodePayload w0 w1 w2 w3).drop 2 =
      toHexBE 64 w0 ++ (toHexBE 64 w1 ++ (toHexBE 64 w2 ++ toHexBE 64 w3)) := rfl
  have hd66 : (encodePayload w0 w1 w2 w3).drop 66 =
      (toHexBE 64 w0 ++ (toHexBE 64 w1 ++ (toHexBE 64 w2 ++ toHexBE 64 w3))).drop 64 := rfl
  have hd130 : (encodePayload w0 w1 w2 w3).drop 130 =
      (toHexBE 64 w0 ++ (toHexBE 64 w1 ++ (toHexBE 64 w2 ++ toHexBE 64 w3))).drop 128 := rfl
  have hd194 : (encodePayload w0 w1 w2 w3).drop 194 =
      (toHexBE 64 w0 ++ (toHexBE 64 w1 ++ (toHexBE 64 w2 ++ toHexBE 64 w3))).drop 192 := rfl
  have s1 : pySlice (encodePayload w0 w1 w2 w3) 2 66 = toHexBE 64 w0 := by
    show ((encodePayload w0 w1 w2 w3).drop 2).take (66 - 2) = _
    rw [hd2, show (66 - 2 : Nat) = 64 from rfl, List.take_left' lA]
  have s2 : pySlice (encodePayload w0 w1 w2 w3) 66 130 = toHexBE 64 w1 := by
    show ((encodePayload w0 w1 w2 w3).drop 66).take (130 - 66) = _
    rw [hd66, List.drop_left' lA, show (130 - 66 : Nat) = 64 from rfl,
      List.take_left' lB]
  have s3 : pySlice (encodePayload w0 w1 w2 w3) 130 194 = toHexBE 64 w2 := by
    show ((encodePayload w0 w1 w2 w3).drop 130).take (194 - 130) = _
    rw [hd130, show (128 : Nat) = 64 + 64 from rfl, ← List.drop_drop,
      List.drop_left' lA, List.drop_left' lB, show (194 - 130 : Nat) = 64 from rfl,
      List.take_left' lC]
  have s4 : pySlice (encodePayload w0 w1 w2 w3) 194 258 = toHexBE 64 w3 := by
    show ((encodePayload w0 w1 w2 w3).drop 194).take (258 - 194) = _
    rw [hd194, show (192 : Nat) = 64 + 128 from rfl, ← List.drop_drop,
      List.drop_left' lA, show (128 : Nat) = 64 + 64 from rfl, ← List.drop_drop,
      List.drop_left' lB, List.drop_left' lC, show (258 - 194 : Nat) = 64 from rfl]
    exact List.take_of_length_le (by rw [lD])
  rw [decodeAmounts, s1, s2, s3, s4,
    pyIntHex_toHexBE 64 w0 (by norm_num) h0,
    pyIntHex_toHexBE 64 w1 (by norm_num) h1,
    pyIntHex_toHexBE 64 w2 (by norm_num) h2,
    pyIntHex_toHexBE 64 w3 (by norm_num) h3]
  rfl

theorem decodeAmounts_short (ds : List Char) (h : ds.length ≤ 192) :
    decodeAmounts ('0' :: 'x' :: ds) = none := by
  have h4 : pySlice ('0' :: 'x' :: ds) 194 258 = [] := by
    show (('0' :: 'x' :: ds).drop 194).take (258 - 194) = []
    rw [show ('0' :: 'x' :: ds).drop 194 = ds.drop 192 from rfl,
      List.drop_eq_nil_of_le h]
    rfl
  rw [decodeAmounts, h4]
  cases pyIntHex (pySlice ('0' :: 'x' :: ds) 2 66) <;>
    cases pyIntHex (pySlice ('0' :: 'x' :: ds) 66 130) <;>
      cases pyIntHex (pySlice ('0' :: 'x' :: ds) 130 194) <;> rfl

theorem pyIntHexCore_isSome (l : List Char) :
    ∀ acc : Nat, (∀ c ∈ l, (hexVal c).isSome) → (pyIntHexCore acc l).isSome := by
  induction l with
  | nil => intro acc _; rfl
  | cons c cs ih =>
    intro acc hv
    obtain ⟨v, hv'⟩ := Option.isSome_iff_exists.mp (hv c (by simp))
    show (match hexVal c with
      | none => none
      | some v => pyIntHexCore (16 * acc + v) cs).isSome = true
    rw [hv']
    exact ih _ fun d hd => hv d (by simp [hd])

theorem pyIntHex_isSome (l : List Char) (hne : l ≠ [])
    (hv : ∀ c ∈ l, (hexVal c).isSome) : (pyIntHex l).isSome := by
  cases l with
  | nil => exact absurd rfl hne
  | cons c cs => exact pyIntHexCore_isSome (c :: cs) 0 hv

theorem decodeAmounts_long_isSome (ds : List Char) (hlen : 193 ≤ ds.length)
    (hv : ∀ c ∈ ds, (hexVal c).isSome) :
    (decodeAmounts ('0' :: 'x' :: ds)).isSome := by
  have s1 : pySlice ('0' :: 'x' :: ds) 2 66 = ds.take 64 := rfl
  have s2 : pySlice ('0' :: 'x' :: ds) 66 130 = (ds.drop 64).take 64 := rfl
  have s3 : pySlice ('0' :: 'x' :: ds) 130 194 = (ds.drop 128).take 64 := rfl
  have s4 : pySlice ('0' :: 'x' :: ds) 194 258 = (ds.drop 192).take 64 := rfl
  have hne : ∀ k : Nat, k + 1 ≤ ds.length → (ds.drop k).take 64 ≠ [] := by
    intro k hk
    apply List.ne_nil_of_length_pos
    simp only [List.length_take, List.length_drop]
    omega
  have hvt : ∀ k : Nat, ∀ c ∈ (ds.drop k).take 64, (hexVal c).isSome := fun k c hc =>
    hv c (List.mem_of_mem_drop (List.mem_of_mem_take hc))
  have e1 := Option.isSome_iff_exists.mp
    (pyIntHex_isSome (ds.take 64) (hne 0 (by omega))
      (fun c hc => hv c (List.mem_of_mem_take hc)))
  have e2 := Option.isSome_iff_exists.mp
    (pyIntHex_isSome _ (hne 64 (by omega)) (hvt 64))
  have e3 := Option.isSome_iff_exists.mp
    (pyIntHex_isSome _ (hne 128 (by omega)) (hvt 128))
  have e4 := Option.isSome_iff_exists.mp
    (pyIntHex_isSome _ (hne 192 (by omega)) (hvt 192))
  obtain ⟨v1, e1⟩ := e1
  obtain ⟨v2, e2⟩ := e2
  obtain ⟨v3, e3⟩ := e3
  obtain ⟨v4, e4⟩ := e4
  rw [decodeAmounts, s1, s2, s3, s4, e1, e2, e3, e4]
  rfl

/-! ## Claim theorems -/

/-- C2 counterexample: a data payload of 160 bytes (320 hex digits, so
length ≠ 128 bytes) decodes successfully to a quadruple of amounts
instead of yielding a decode error — the claim "for every raw log whose
payload length is not 128 bytes, decoding yields a DecodeError" fails at
this input. -/
theorem C2_counterexample :
    longData.length = 2 + 320 ∧ decodeAmounts longData = some (0, 0, 0, 0) :=
  ⟨rfl, rfl⟩

/-- C2 (amended): a payload of exactly four 32-byte big-endian words
`w0 w1 w2 w3` decodes to `amount0In=w0, amount1In=w1, amount0Out=w2,
amount1Out=w3`; a payload with at most 192 hex digits (at most 96 bytes)
yields a decode error; a well-formed hex payload with at least 193 hex
digits — in particular any whole-byte payload longer than 128 bytes —
decodes without error, using only the leading slices. -/
theorem C2_decode_correctness :
    (∀ w0 w1 w2 w3 : Nat, w0 < 16 ^ 64 → w1 < 16 ^ 64 → w2 < 16 ^ 64 → w3 < 16 ^ 64 →
      decodeAmounts (encodePayload w0 w1 w2 w3) = some (w0, w1, w2, w3))
  ∧ (∀ ds : List Char, ds.length ≤ 192 → decodeAmounts ('0' :: 'x' :: ds) = none)
  ∧ (∀ ds : List Char, 193 ≤ ds.length → (∀ c ∈ ds, (hexVal c).isSome) →
      (decodeAmounts ('0' :: 'x' :: ds)).isSome) :=
  ⟨decodeAmounts_encodePayload, decodeAmounts_short, decodeAmounts_long_isSome⟩

/-- Witness for C2: decoding a concrete well-formed payload of the words
1, 2, 3, 4 and a concrete 5-byte payload. -/
theorem C2_decode_correctness_witness :
    decodeAmounts (encodePayload 1 2 3 4) = some (1, 2, 3, 4)
  ∧ decodeAmounts ('0' :: 'x' :: List.replicate 10 '0') = none :=
  ⟨C2_decode_correctness.1 1 2 3 4 (by norm_num) (by norm_num) (by norm_num) (by norm_num),
   C2_decode_correctness.2.1 (List.replicate 10 '0') (by decide)⟩

/-- C3: on the fixture batch of exactly 3 valid swap logs and 1
malformed log, the pipeline decodes and stores exactly 3 trades and
skips exactly 1 log, with no fatal error (the fetch returns normally);
in general, every log that decodes is in the result no matter which
other logs of the batch are malformed. -/
theorem C3_malformed_skip :
    ((fetch_swap_events (Except.ok fixtureBatch) (fun _ => ctx0) 1000).length = 3
      ∧ (fixtureBatch.filter fun e => (processEvent ctx0 e).isNone).length = 1
      ∧ (save_trades_to_db 9 emptyTradesDb
          (fetch_swap_events (Except.ok fixtureBatch) (fun _ => ctx0) 1000)).rows.length = 3)
  ∧ ∀ (ctxOf : RawEvent → EvtContext) (events : List RawEvent) (lim : Nat)
      (e : RawEvent) (t : Trade),
      e ∈ events.take lim → processEvent (ctxOf e) e = some t →
      t ∈ fetch_swap_events (Except.ok events) ctxOf lim := by
  constructor
  · exact ⟨by decide, by decide, by decide⟩
  · intro ctxOf events lim e t he ht
    simp only [fetch_swap_events, List.mem_filterMap]
    exact ⟨e, he, ht⟩

/-- Witness for C3: the trade decoded from the first valid fixture log
is in the result of processing the mixed fixture batch. -/
theorem C3_malformed_skip_witness :
    tGood1 ∈ fetch_swap_events (Except.ok fixtureBatch) (fun _ => ctx0) 1000 :=
  C3_malformed_skip.2 (fun _ => ctx0) fixtureBatch 1000 evGood1 tGood1
    (by decide) (by decide)

/-- C6 counterexample: a connectivity failure of the log query is
converted into a successful empty result, indistinguishable from an
empty block range — the claim that it is surfaced as an error and "never
silently converted into a successful empty result" fails at this
input. -/
theorem C6_counterexample :
    fetch_swap_events (Except.error RpcError.connectivity) (fun _ => ctx0) 1000 = []
  ∧ fetch_swap_events (Except.error RpcError.connectivity) (fun _ => ctx0) 1000
      = fetch_swap_events (Except.ok []) (fun _ => ctx0) 1000 :=
  ⟨rfl, rfl⟩

/-- C6 (amended): every provider failure of the log query — including a
connectivity failure — is caught inside `fetch_swap_events`, logged, and
converted into a successful empty trade list, identical to the result
for an empty block range; no retry is attempted at this boundary and no
error reaches the caller. -/
theorem C6_error_swallowed (e : RpcError) (ctxOf : RawEvent → EvtContext) (lim : Nat) :
    fetch_swap_events (Except.error e) ctxOf lim = []
  ∧ fetch_swap_events (Except.error e) ctxOf lim
      = fetch_swap_events (Except.ok []) ctxOf lim := by
  constructor
  · rfl
  · show [] = ([].take lim).filterMap _
    rw [List.take_nil]
    rfl

/-- C8: `get_token_info` always returns a record whose address equals
the input address, and on a failed lookup it returns — rather than
raises — the sentinel record `UNKNOWN / Unknown Token / 18 / 0`. -/
theorem C8_token_info (addr : List Char) (lookup : Except LookupError TokenChainData)
    (e : LookupError) :
    (get_token_info addr lookup).address = addr
  ∧ get_token_info addr (Except.error e) =
      { address := addr, symbol := "UNKNOWN".toList, name := "Unknown Token".toList,
        decimals := 18, total_supply := 0 } := by
  constructor
  · cases lookup <;> rfl
  · rfl

/-- C9: `fetch_swap_events` processes only the first `limit` logs
(default 1000) of the provider response: the result never has more than
`limit` trades and is unchanged when everything after the first `limit`
logs is discarded; the returned list carries no truncation marker. -/
theorem C9_limit_truncation (events : List RawEvent) (ctxOf : RawEvent → EvtContext)
    (lim : Nat) :
    defaultEventLimit = 1000
  ∧ (fetch_swap_events (Except.ok events) ctxOf lim).length ≤ lim
  ∧ fetch_swap_events (Except.ok events) ctxOf lim
      = fetch_swap_events (Except.ok (events.take lim)) ctxOf lim := by
  refine ⟨rfl, ?_, ?_⟩
  · calc (fetch_swap_events (Except.ok events) ctxOf lim).length
        ≤ (events.take lim).length := List.length_filterMap_le _ _
      _ ≤ lim := List.length_take_le _ _
  · show ((events.take lim).filterMap _) = ((events.take lim).take lim).filterMap _
    rw [List.take_take, min_self]

/-- C5: if `f` fails `N` times and then succeeds, with `N` below the
maximum of 3 attempts, `retry_web3_call` returns the successful result
after exactly `N` sleeps of `delay * 2 ^ attempt` for attempts
`0, ..., N-1`, each sleep exactly (hence at least) twice the previous;
and if `f` fails on all 3 attempts, the last error is raised. -/
theorem C5_retry_backoff {ε α : Type} (f : Nat → Except ε α) (delay : ℚ) (N : Nat) (a : α)
    (hN : N < 3)
    (hfail : ∀ k, k < N → ∃ e, f k = Except.error e)
    (hsucc : f N = Except.ok a) :
    (retry_web3_call f 3 delay =
      some (Except.ok a, (List.range N).map fun i => delay * 2 ^ i))
  ∧ List.Chain' (fun x y => y = 2 * x) ((List.range N).map fun i => delay * 2 ^ i)
  ∧ (∀ (g : Nat → Except ε α) (e0 e1 e2 : ε),
      g 0 = Except.error e0 → g 1 = Except.error e1 → g 2 = Except.error e2 →
      (retry_web3_call g 3 delay).map Prod.fst = some (Except.error e2)) := by
  refine ⟨?_, ?_, ?_⟩
  · interval_cases N
    · simp [retry_web3_call, retryLoop, hsucc]
    · obtain ⟨e0, h0⟩ := hfail 0 (by norm_num)
      simp [retry_web3_call, retryLoop, h0, hsucc, List.range_succ]
    · obtain ⟨e0, h0⟩ := hfail 0 (by norm_num)
      obtain ⟨e1, h1⟩ := hfail 1 (by norm_num)
      simp [retry_web3_call, retryLoop, h0, h1, hsucc, List.range_succ]
  · interval_cases N
    · exact List.chain'_nil
    · simp [List.range_succ]
    · simp [List.range_succ]
      ring
  · intro g e0 e1 e2 h0 h1 h2
    simp [retry_web3_call, retryLoop, h0, h1, h2]

/-- Witness for C5: the simulated endpoint failing twice and then
returning 7, with base delay 1, succeeds with the two sleeps
`1 * 2 ^ 0` and `1 * 2 ^ 1`. -/
theorem C5_retry_backoff_witness :
    retry_web3_call flakyCall 3 1 =
      some (Except.ok 7, (List.range 2).map fun i => (1 : ℚ) * 2 ^ i) :=
  (C5_retry_backoff flakyCall 1 2 7 (by norm_num)
    (by
      intro k hk
      interval_cases k
      · exact ⟨0, rfl⟩
      · exact ⟨1, rfl⟩)
    rfl).1

/-- C7 counterexample: the per-event decoding performs no validation of
`topics[0]` — a log whose `topics[0]` differs from the swap event
signature is still decoded into a trade, so "the decoder validates that
topics[0] equals the known signature" fails at this input. -/
theorem C7_counterexample :
    evBadTopic.topics[0]? = some badTopic ∧ badTopic ≠ swap_topic
  ∧ (processEvent ctx0 evBadTopic).isSome :=
  ⟨rfl, by decide, rfl⟩

/-- C7 (amended): the restriction of `topics[0]` to the swap event
signature is requested from the provider through the filter's `topics`
argument `[swap_topic]`, not re-validated by the decoder; every log
turned into a trade has its `sender` equal to `0x` plus the last 40 hex
characters (the low 20 bytes) of `topics[1]` and its `to` address equal
to `0x` plus the last 40 hex characters of `topics[2]`. -/
theorem C7_sender_to (ctx : EvtContext) (e : RawEvent) (t : Trade)
    (h : processEvent ctx e = some t) :
    swapFilterTopics = [swap_topic]
  ∧ (∃ t1, e.topics[1]? = some t1 ∧ t.sender = '0' :: 'x' :: lastChars 40 t1)
  ∧ (∃ t2, e.topics[2]? = some t2 ∧ t.to_address = '0' :: 'x' :: lastChars 40 t2) := by
  obtain ⟨t1, h1⟩ : ∃ t1, e.topics[1]? = some t1 := by
    cases h1 : e.topics[1]? with
    | none => simp [processEvent, h1] at h
    | some t1 => exact ⟨t1, rfl⟩
  obtain ⟨t2, h2⟩ : ∃ t2, e.topics[2]? = some t2 := by
    cases h2 : e.topics[2]? with
    | none => simp [processEvent, h1, h2] at h
    | some t2 => exact ⟨t2, rfl⟩
  obtain ⟨q, hd⟩ : ∃ q, decodeAmounts e.data = some q := by
    cases hd : decodeAmounts e.data with
    | none => simp [processEvent, h1, h2, hd] at h
    | some q => exact ⟨q, rfl⟩
  obtain ⟨a0i, a1i, a0o, a1o⟩ := q
  simp only [processEvent, h1, h2, hd, Option.bind_eq_bind, Option.some_bind,
    Option.pure_def, Option.some.injEq] at h
  subst h
  exact ⟨rfl, ⟨t1, h1, rfl⟩, ⟨t2, h2, rfl⟩⟩

/-- Witness for C7: the first fixture log decodes to a trade whose
sender and recipient are the low 20 bytes of its topics 1 and 2. -/
theorem C7_sender_to_witness :
    swapFilterTopics = [swap_topic]
  ∧ (∃ t1, evGood1.topics[1]? = some t1 ∧ tGood1.sender = '0' :: 'x' :: lastChars 40 t1)
  ∧ (∃ t2, evGood1.topics[2]? = some t2 ∧
      tGood1.to_address = '0' :: 'x' :: lastChars 40 t2) :=
  C7_sender_to ctx0 evGood1 tGood1 (by decide)

/-- C1 (claim refuted by the code): the `trades` schema created by
`init_database` has no unique constraint on (transaction_hash,
log_index) — indeed no `log_index` column at all — so the
`INSERT OR IGNORE` of `save_trades_to_db` never finds a conflicting key
and re-ingesting the same trades inserts every row again.  Saving the
same single-trade list twice leaves 2 rows (the second run inserts 1 row
rather than the claimed 0), both carrying the same transaction hash. -/
theorem C1_reingestion_duplicates :
    (save_trades_to_db 9 emptyTradesDb [sampleTrade]).rows.length = 1
  ∧ (save_trades_to_db 9 (save_trades_to_db 9 emptyTradesDb [sampleTrade])
      [sampleTrade]).rows.length = 2
  ∧ ((save_trades_to_db 9 (save_trades_to_db 9 emptyTradesDb [sampleTrade])
      [sampleTrade]).rows.filter fun r =>
        r.transaction_hash = sampleTrade.transaction_hash).length = 2 :=
  ⟨by decide, by decide, by decide⟩

theorem filter_applyStat (now : Nat) (tbl : List WalletRow) (st : WalletStatQueryRow)
    (s : List Char) :
    ((applyStat now tbl st).filter fun r => r.address = s) =
      if st.wallet = s then [statRow now st]
      else tbl.filter fun r => r.address = s := by
  unfold applyStat
  rw [List.filter_append, List.filter_filter]
  by_cases hws : st.wallet = s
  · rw [if_pos hws]
    have h1 : (tbl.filter fun a =>
        decide (a.address = s) && decide ¬(a.address = st.wallet)) = [] := by
      rw [List.filter_eq_nil_iff]
      intro a _
      by_cases ha : a.address = s
      · simp [ha, hws]
      · simp [ha]
    rw [h1]
    simp [statRow, hws]
  · rw [if_neg hws]
    have h2 : ([statRow now st].filter fun r => r.address = s) = [] := by
      simp [statRow, hws]
    rw [h2, List.append_nil]
    apply List.filter_congr
    intro a _
    by_cases ha : a.address = s
    · have haw : ¬ a.address = st.wallet := fun hcontra => hws (hcontra ▸ ha)
      simp [ha, haw]
      exact fun hsw => hws hsw.symm
    · simp [ha]

theorem filter_foldl_not_mem (now : Nat) (stats : List WalletStatQueryRow) :
    ∀ (tbl : List WalletRow) (s : List Char),
      (∀ st ∈ stats, st.wallet ≠ s) →
      ((stats.foldl (applyStat now) tbl).filter fun r => r.address = s) =
        tbl.filter fun r => r.address = s := by
  induction stats with
  | nil => intro tbl s _; rfl
  | cons st rest ih =>
    intro tbl s hs
    rw [List.foldl_cons, ih (applyStat now tbl st) s (fun st' h' => hs st' (by simp [h'])),
      filter_applyStat, if_neg (hs st (by simp))]

theorem filter_foldl_mem (now : Nat) (stats : List WalletStatQueryRow) :
    ∀ (tbl : List WalletRow) (st : WalletStatQueryRow) (s : List Char),
      (stats.map WalletStatQueryRow.wallet).Nodup →
      st ∈ stats → st.wallet = s →
      ((stats.foldl (applyStat now) tbl).filter fun r => r.address = s) =
        [statRow now st] := by
  induction stats with
  | nil => intro tbl st s _ hmem _; exact absurd hmem (List.not_mem_nil st)
  | cons a rest ih =>
    intro tbl st s hnd hmem hws
    rw [List.map_cons, List.nodup_cons] at hnd
    rw [List.foldl_cons]
    rcases List.mem_cons.mp hmem with rfl | h
    · have hrest : ∀ st' ∈ rest, st'.wallet ≠ s := by
        intro st' h' hc
        apply hnd.1
        have hmem' : st'.wallet ∈ rest.map WalletStatQueryRow.wallet :=
          List.mem_map_of_mem _ h'
        rw [hc, ← hws] at hmem'
        exact hmem'
      rw [filter_foldl_not_mem now rest (applyStat now tbl st) s hrest,
        filter_applyStat, if_pos hws]
    · exact ih (applyStat now tbl a) st s hnd.2 h hws

/-- Key characterization: after `update_wallet_stats`, the wallet rows
whose address is a sender of some trade are exactly one freshly written
aggregate row per such sender. -/
theorem update_wallet_stats_filter (now : Nat) (trades : List TradeRow)
    (wallets : List WalletRow) (s : List Char)
    (hs : s ∈ trades.map TradeRow.sender) :
    ((update_wallet_stats now trades wallets).filter fun r => r.address = s) =
      [statRow now (mkWalletStat trades s)] := by
  unfold update_wallet_stats wallet_stats_query
  apply filter_foldl_mem
  · rw [List.map_map]
    have hcomp : (WalletStatQueryRow.wallet ∘ mkWalletStat trades) = id := by
      funext x; rfl
    rw [hcomp, List.map_id]
    exact (trades.map TradeRow.sender).nodup_dedup
  · exact List.mem_map_of_mem _ (List.mem_dedup.mpr hs)
  · rfl

/-- C4: for every stored trade set, the refresh produces for each
distinct sender exactly one wallet row (here: the rows at that address
form a singleton), whose `total_trades` is that sender's trade count and
whose first/last trade dates are the minimum/maximum timestamp over that
sender's trades. -/
theorem C4_wallet_aggregation (now : Nat) (trades : List TradeRow)
    (wallets : List WalletRow) (s : List Char)
    (hs : s ∈ trades.map TradeRow.sender) :
    ((update_wallet_stats now trades wallets).filter fun r => r.address = s) =
      [{ address := s
         total_trades := (trades.filter fun r => r.sender = s).length
         total_volume_usd := 0
         first_trade_date :=
           ((trades.filter fun r => r.sender = s).map TradeRow.timestamp).min?
         last_trade_date :=
           ((trades.filter fun r => r.sender = s).map TradeRow.timestamp).max?
         created_at := now }] := by
  rw [update_wallet_stats_filter now trades wallets s hs]
  rfl

/-- Witness for C4: sender `0xAA` trading at timestamps {100, 500, 300}
yields exactly one wallet row with `totalTrades = 3`,
`firstTradeTimestamp = 100`, `lastTradeTimestamp = 500`. -/
theorem C4_wallet_aggregation_witness :
    ((update_wallet_stats 7 aaRows []).filter fun r => r.address = addrAA) =
      [{ address := addrAA, total_trades := 3, total_volume_usd := 0,
         first_trade_date := some 100, last_trade_date := some 500,
         created_at := 7 }] := by
  rw [C4_wallet_aggregation 7 aaRows [] addrAA (by decide)]
  decide

/-- C10: after `update_wallet_stats`, every wallet row whose address
appears as a sender has `total_volume_usd = 0` and `created_at` equal to
the refresh time: the `INSERT OR REPLACE` names only `address,
total_trades, first_trade_date, last_trade_date`, so the unnamed columns
revert to their schema defaults. -/
theorem C10_volume_reset (now : Nat) (trades : List TradeRow)
    (wallets : List WalletRow) (r : WalletRow)
    (hr : r ∈ update_wallet_stats now trades wallets)
    (hs : r.address ∈ trades.map TradeRow.sender) :
    r.total_volume_usd = 0 ∧ r.created_at = now := by
  have h := update_wallet_stats_filter now trades wallets r.address hs
  have hm : r ∈ ((update_wallet_stats now trades wallets).filter
      fun x => x.address = r.address) := by
    rw [List.mem_filter]
    exact ⟨hr, by simp⟩
  rw [h, List.mem_singleton] at hm
  rw [hm]
  exact ⟨rfl, rfl⟩

/-- Witness for C10: refreshing over the `0xAA` fixture trades starting
from a wallets table whose `0xAA` row has accumulated volume 5 and
creation time 1 leaves a row with volume reset to 0 and creation time
reset to the refresh time 7. -/
theorem C10_volume_reset_witness :
    ({ address := addrAA, total_trades := 3, total_volume_usd := 0,
       first_trade_date := some 100, last_trade_date := some 500,
       created_at := 7 } : WalletRow).total_volume_usd = 0
  ∧ ({ address := addrAA, total_trades := 3, total_volume_usd := 0,
       first_trade_date := some 100, last_trade_date := some 500,
       created_at := 7 } : WalletRow).created_at = 7 :=
  C10_volume_reset 7 aaRows [oldWalletAA] _ (by decide) (by decide)

end DeFi
